import Mathlib

/-!
Verification of the blockchain event indexer of `pinai_agent_sdk`
(`src/pinai_agent_sdk/indexer.py`, class `BlockchainIndexer`).

The indexer is embedded shallowly:

* Python byte strings (event topics, `HexBytes`) become `List Nat` with each
  element a byte value; `HexBytes.hex()` becomes `bytesToHex`, which produces
  the `0x`-prefixed lowercase hex string exactly as the `hexbytes` library does.
* `int(s, 16)` becomes `pyIntHex : String → Option Nat` (`none` models a raised
  `ValueError`); it accepts an optional `0x` prefix, as Python does for base 16.
  At every call site of the source the argument is a `bytesToHex` output, so the
  model covers lowercase digits, which is all those call sites can produce.
* The mutable fields of the `BlockchainIndexer` object, together with the local
  variable `last_processed_block` of `_run_indexer`, become the structure
  `IndexerState`, threaded explicitly.
* Every interaction with the outside world (the two `get_block_number()` calls
  of one loop iteration, `web3.eth.filter(...)`, `get_filter_changes`,
  the contract read `getOrder`, the HTTP `requests.post`) is an oracle value:
  `Except String α`, where `Except.error` models the call raising an exception.
* Side effects that the claims observe (the HTTP POST issued by `_submit_bid`,
  the `getOrder` contract read) are collected in a `List Effect`.
* A raised-and-caught Python exception is a branch in the model: functions that
  the source wraps in `try/except` return their fallback value on the error
  branch, so the Lean functions are total exactly because the source catches.
-/

/-- Lowercase hex digit character for a value below 16, as Python's `hex`
formatting produces (`0`-`9` then `a`-`f`). -/
def hexDigitChar (n : Nat) : Char :=
  if n < 10 then Char.ofNat (48 + n) else Char.ofNat (87 + n)

/-- Two lowercase hex digits of one byte. -/
def byteToHex (b : Nat) : String :=
  String.mk [hexDigitChar (b / 16 % 16), hexDigitChar (b % 16)]

/-- Model of `HexBytes.hex()`: the `0x`-prefixed lowercase hex rendering of a
byte sequence. -/
def bytesToHex (bs : List Nat) : String :=
  "0x" ++ String.join (bs.map byteToHex)

/-- Numeric value of one hex digit character (both cases), `none` otherwise. -/
def hexDigitVal (c : Char) : Option Nat :=
  if 48 ≤ c.toNat ∧ c.toNat ≤ 57 then some (c.toNat - 48)
  else if 97 ≤ c.toNat ∧ c.toNat ≤ 102 then some (c.toNat - 87)
  else if 65 ≤ c.toNat ∧ c.toNat ≤ 70 then some (c.toNat - 55)
  else none

/-- Horner evaluation of a hex digit list; `none` as soon as a character is not
a hex digit. -/
def hexDigitsVal : List Char → Nat → Option Nat
  | [], acc => some acc
  | c :: rest, acc =>
    match hexDigitVal c with
    | some d => hexDigitsVal rest (16 * acc + d)
    | none => none

/-- Model of Python's `int(s, 16)` as used by the indexer: an optional `0x`
prefix followed by at least one hex digit; `none` models the raised
`ValueError` (for instance on the bare string produced by hexing an empty
topic). -/
def pyIntHex (s : String) : Option Nat :=
  let cs := s.data
  let body := if cs.take 2 = ['0', 'x'] then cs.drop 2 else cs
  match body with
  | [] => none
  | _ => hexDigitsVal body 0

/-- Model of the Python slice `s[-n:]`: the last `n` characters, the whole
string when it is shorter. -/
def strTakeRight (s : String) (n : Nat) : String :=
  String.mk (s.data.drop (s.data.length - n))

/-- One log entry as the dispatcher sees it: the ordered topic words, each a
byte sequence (`event['topics']`). The non-indexed data payload is only
logged by the source, never read, so it is omitted. -/
structure LogEvent where
  topics : List (List Nat)
deriving Repr, DecidableEq

/-- The bid value object built by `_handle_order_created`; its four fields are
exactly the keys of the JSON body that `_submit_bid` posts. -/
structure BidData where
  orderId : Nat
  userId : String
  agentId : Nat
  amount : Nat
deriving Repr, DecidableEq

/-- Outward side effects the claims observe. -/
inductive Effect where
  /-- An HTTP POST issued by `requests.post(url, json=body, ...)`. -/
  | httpPost (url : String) (body : BidData)
  /-- A contract read `intent_matching_contract.functions.getOrder(id).call()`. -/
  | contractGetOrder (orderId : Nat)
deriving Repr, DecidableEq

/-- Mutable state of one `BlockchainIndexer` object: the fields set by
`__init__` that the indexing core touches, plus `last_processed_block`, which
the source keeps as a local variable of `_run_indexer` initialised to `0` at
loop entry and threaded across iterations. `base_url` does not exist until
`_submit_bid` first assigns it, hence the `Option`. -/
structure IndexerState where
  intent_matching_url : Option String := none
  stop_indexing : Bool := false
  indexer_thread_alive : Option Bool := none
  current_room_id : Option Nat := none
  current_order_id : Option Nat := none
  last_processed_block : Nat := 0
  base_url : Option String := none
deriving Repr, DecidableEq

/-- Digest strings keying the `event_signatures` dict. The source computes each
as `Web3.keccak(text=sig).hex()` over the four canonical signature strings;
keccak-256 itself is kept abstract, so the four digests are carried as data.
In reality they are pairwise distinct 32-byte digests rendered as
`0x`-prefixed hex. -/
structure EventSignatures where
  orderCreated : String
  orderMatched : String
  addressesTracked : String
  orderCompleted : String
deriving Repr, DecidableEq

/-- The four handler methods registered in the `event_signatures` dict. -/
inductive Handler where
  | orderCreated
  | orderMatched
  | addressesTracked
  | orderCompleted
deriving Repr, DecidableEq

/-- Lookup in the `event_signatures` dict built by `__init__`. Python dict
construction lets a later duplicate key overwrite an earlier one, so the value
found for a key is that of its last insertion: the match below therefore tests
the insertions in reverse order. -/
def lookupHandler (sigs : EventSignatures) (sig : String) : Option Handler :=
  if sig = sigs.orderCompleted then some Handler.orderCompleted
  else if sig = sigs.addressesTracked then some Handler.addressesTracked
  else if sig = sigs.orderMatched then some Handler.orderMatched
  else if sig = sigs.orderCreated then some Handler.orderCreated
  else none

/-- Oracle for the external calls a single handler invocation may make:
the result of the `getOrder` contract read and of the `requests.post` call
(`Except.error` models the call raising). A `.ok` value of `getOrder` is the
returned order tuple. -/
structure EventOracle where
  getOrder : Except String (List Nat) := Except.ok []
  postStatus : Except String Nat := Except.ok 200
deriving Repr

/-- Model of `_submit_bid`. The source first reassigns
`self.base_url = "http://localhost:3000"` (before its `try` block and before
the falsiness check `if not self.base_url`), then posts to
`f"(base_url)/bid"`; every exception of the POST is caught inside, and a
non-2xx status is only logged. The returned effects therefore contain exactly
the one POST attempt. -/
def submitBid (st : IndexerState) (bid : BidData) (o : EventOracle) :
    IndexerState × List Effect :=
  let st1 : IndexerState := { st with base_url := some "http://localhost:3000" }
  match st1.base_url with
  | none => (st1, [])
  | some u =>
    if u = "" then (st1, [])
    else
      match o.postStatus with
      | Except.error _ => (st1, [Effect.httpPost (u ++ "/bid") bid])
      | Except.ok _status => (st1, [Effect.httpPost (u ++ "/bid") bid])

/-- Model of `_handle_order_created`: decode `orderId` from topic 1 and the
user address from the last 40 hex digits of topic 2, build the bid with
`agentId = 0`, `amount = 100`, submit it. Every exception (missing topic,
failed int decode) is caught by the handler's own `try/except`, leaving the
state unchanged. -/
def handleOrderCreated (st : IndexerState) (ev : LogEvent) (o : EventOracle) :
    IndexerState × List Effect :=
  match ev.topics.get? 1 with
  | none => (st, [])
  | some t1 =>
    match pyIntHex (bytesToHex t1) with
    | none => (st, [])
    | some orderId =>
      match ev.topics.get? 2 with
      | none => (st, [])
      | some t2 =>
        let userAddress := "0x" ++ strTakeRight (bytesToHex t2) 40
        submitBid st ⟨orderId, userAddress, 0, 100⟩ o

/-- Model of `_handle_order_matched`: decode `orderId` from topic 1, read the
order back via `getOrder`, and only then assign `self.current_order_id`.
If the decode fails or the contract read raises, the `except` branch leaves
every field unchanged. -/
def handleOrderMatched (st : IndexerState) (ev : LogEvent) (o : EventOracle) :
    IndexerState × List Effect :=
  match ev.topics.get? 1 with
  | none => (st, [])
  | some t1 =>
    match pyIntHex (bytesToHex t1) with
    | none => (st, [])
    | some orderId =>
      match o.getOrder with
      | Except.error _ => (st, [Effect.contractGetOrder orderId])
      | Except.ok _order =>
        ({ st with current_order_id := some orderId },
         [Effect.contractGetOrder orderId])

/-- Model of `_handle_addresses_tracked`: the source body is `pass`. -/
def handleAddressesTracked (st : IndexerState) (_ev : LogEvent)
    (_o : EventOracle) : IndexerState × List Effect :=
  (st, [])

/-- Model of `_handle_order_completed`: decode `orderId` from topic 1, read the
order back, take `order[1]` as the amount (an out-of-range index raises and is
caught), and log. No state field is written. -/
def handleOrderCompleted (st : IndexerState) (ev : LogEvent) (o : EventOracle) :
    IndexerState × List Effect :=
  match ev.topics.get? 1 with
  | none => (st, [])
  | some t1 =>
    match pyIntHex (bytesToHex t1) with
    | none => (st, [])
    | some orderId =>
      match o.getOrder with
      | Except.error _ => (st, [Effect.contractGetOrder orderId])
      | Except.ok order =>
        match order.get? 1 with
        | none => (st, [Effect.contractGetOrder orderId])
        | some _amount => (st, [Effect.contractGetOrder orderId])

/-- Run the handler a dispatch table entry names. -/
def runHandler (h : Handler) (st : IndexerState) (ev : LogEvent)
    (o : EventOracle) : IndexerState × List Effect :=
  match h with
  | Handler.orderCreated => handleOrderCreated st ev o
  | Handler.orderMatched => handleOrderMatched st ev o
  | Handler.addressesTracked => handleAddressesTracked st ev o
  | Handler.orderCompleted => handleOrderCompleted st ev o

/-- Model of `_process_event`: read `event['topics'][0].hex()` (a missing
first topic raises `IndexError`, caught by the method's own `try/except`),
look the digest up in the dict, and call the handler if one is registered.
The third component records which handler, if any, was invoked. -/
def processEvent (sigs : EventSignatures) (st : IndexerState) (ev : LogEvent)
    (o : EventOracle) : IndexerState × List Effect × Option Handler :=
  match ev.topics.get? 0 with
  | none => (st, [], none)
  | some t0 =>
    match lookupHandler sigs (bytesToHex t0) with
    | none => (st, [], none)
    | some h =>
      let r := runHandler h st ev o
      (r.1, r.2, some h)

/-- Process one fetched batch in arrival order, as the `for event in
new_entries` loop does; the oracle function supplies each position's external
responses. `_process_event` catches every exception, so the fold is total. -/
def processBatch (sigs : EventSignatures) : IndexerState → List LogEvent →
    (Nat → EventOracle) → IndexerState × List Effect
  | st, [], _ => (st, [])
  | st, ev :: rest, os =>
    let r := processEvent sigs st ev (os 0)
    let r2 := processBatch sigs r.1 rest (fun n => os (n + 1))
    (r2.1, r.2.1 ++ r2.2)

/-- Oracle for the chain-client calls of one iteration of the `while` loop of
`_run_indexer`: the first and the second `get_block_number()` call, the
`web3.eth.filter(contract_filter)` call made inside the loop (its `.ok` value
is the fresh filter id), the `get_filter_changes` call on that id, and the
per-event responses for the batch. `Except.error` models the call raising. -/
structure IterOracle where
  height1 : Except String Nat := Except.ok 0
  height2 : Except String Nat := Except.ok 0
  newFilter : Except String Nat := Except.ok 0
  changes : Except String (List LogEvent) := Except.ok []
  events : Nat → EventOracle := fun _ => {}

/-- Observable outcome of one loop iteration: the state after it,
how many `web3.eth.filter(contract_filter)` calls it issued, how many
`get_filter_changes` calls it issued, the entries handed to `_process_event`,
the outward effects, and whether the `except` branch of the loop body ran
(error logged, 1 s backoff sleep). -/
structure IterResult where
  state : IndexerState
  filterCreations : Nat
  fetchCalls : Nat
  dispatched : List LogEvent
  effects : List Effect
  errored : Bool
deriving Repr

/-- Model of one iteration of the `while not self.stop_indexing` body of
`_run_indexer`. The source reads the height twice: the guard
`if get_block_number() <= last_processed_block: continue` uses the first
read, and the assignment `last_processed_block = get_block_number()` the
second. Then it creates a fresh filter from the descriptor and fetches that
filter's changes, dispatches each entry, and sleeps 100 ms. Any exception in
the body is caught by the surrounding `try/except`, which logs, sleeps 1 s,
and lets the loop continue. -/
def runIter (sigs : EventSignatures) (st : IndexerState) (o : IterOracle) :
    IterResult :=
  match o.height1 with
  | Except.error _ => ⟨st, 0, 0, [], [], true⟩
  | Except.ok h1 =>
    if h1 ≤ st.last_processed_block then ⟨st, 0, 0, [], [], false⟩
    else
      match o.height2 with
      | Except.error _ => ⟨st, 0, 0, [], [], true⟩
      | Except.ok h2 =>
        let st1 : IndexerState := { st with last_processed_block := h2 }
        match o.newFilter with
        | Except.error _ => ⟨st1, 1, 0, [], [], true⟩
        | Except.ok _fid =>
          match o.changes with
          | Except.error _ => ⟨st1, 1, 1, [], [], true⟩
          | Except.ok entries =>
            let r := processBatch sigs st1 entries o.events
            ⟨r.1, 1, 1, entries, r.2, false⟩

/-- Model of the `while not self.stop_indexing` loop: one `IterOracle` per
iteration actually executed, i.e. the list covers the iterations that run
before the cooperative stop flag is observed. The state threads through; the
results list records every iteration's outcome. -/
def runLoop (sigs : EventSignatures) : IndexerState → List IterOracle →
    IndexerState × List IterResult
  | st, [] => (st, [])
  | st, o :: os =>
    let r := runIter sigs st o
    let rest := runLoop sigs r.state os
    (rest.1, r :: rest.2)

/-- Model of `BlockchainIndexer.stop`: when a thread object exists and
`is_alive()` holds, set the stop flag, join with a bounded timeout, and log
the info message; in every other case the `if` guard fails and the method
returns at once, emitting no log message. The second component lists the log
messages the call emits. -/
def stop (st : IndexerState) : IndexerState × List String :=
  match st.indexer_thread_alive with
  | some true => ({ st with stop_indexing := true }, ["Blockchain indexer stopped"])
  | _ => (st, [])

/-- Sample digest table for concrete evaluations: four distinct hex-rendered
digests standing in for the four keccak digests of the source. -/
def sigsA : EventSignatures :=
  ⟨bytesToHex [1], bytesToHex [2], bytesToHex [3], bytesToHex [4]⟩

/-- Helper: `_submit_bid` is a constant-result operation: whatever the prior
state and oracle, it sets `base_url` to the hard-coded endpoint and issues the
one POST to it. -/
theorem submitBid_eq (st : IndexerState) (bid : BidData) (o : EventOracle) :
    submitBid st bid o =
      ({ st with base_url := some "http://localhost:3000" },
       [Effect.httpPost "http://localhost:3000/bid" bid]) := by
  unfold submitBid
  cases o.postStatus <;> rfl

/-- Helper: `_handle_order_created` never touches the cursor. -/
theorem handleOrderCreated_last_block (st : IndexerState) (ev : LogEvent)
    (o : EventOracle) :
    ((handleOrderCreated st ev o).1).last_processed_block =
      st.last_processed_block := by
  unfold handleOrderCreated
  repeat' split
  any_goals rfl
  simp only [submitBid_eq]

/-- Helper: `_handle_order_matched` never touches the cursor. -/
theorem handleOrderMatched_last_block (st : IndexerState) (ev : LogEvent)
    (o : EventOracle) :
    ((handleOrderMatched st ev o).1).last_processed_block =
      st.last_processed_block := by
  unfold handleOrderMatched
  repeat' split
  all_goals rfl

/-- Helper: `_handle_order_completed` never touches the cursor. -/
theorem handleOrderCompleted_last_block (st : IndexerState) (ev : LogEvent)
    (o : EventOracle) :
    ((handleOrderCompleted st ev o).1).last_processed_block =
      st.last_processed_block := by
  unfold handleOrderCompleted
  repeat' split
  all_goals rfl

/-- Helper: the dispatcher never touches the cursor: only the poller loop
writes `last_processed_block`. -/
theorem processEvent_last_block (sigs : EventSignatures) (st : IndexerState)
    (ev : LogEvent) (o : EventOracle) :
    ((processEvent sigs st ev o).1).last_processed_block =
      st.last_processed_block := by
  unfold processEvent
  split
  · rfl
  · split
    · rfl
    · rename_i h _
      dsimp only
      cases h <;>
        simp only [runHandler, handleOrderCreated_last_block,
          handleOrderMatched_last_block, handleOrderCompleted_last_block]
      rfl

/-- Helper: batch processing never touches the cursor. -/
theorem processBatch_last_block (sigs : EventSignatures) :
    ∀ (events : List LogEvent) (st : IndexerState) (os : Nat → EventOracle),
      ((processBatch sigs st events os).1).last_processed_block =
        st.last_processed_block := by
  intro events
  induction events with
  | nil => intro st os; rfl
  | cons ev rest ih =>
    intro st os
    unfold processBatch
    rw [ih, processEvent_last_block]

/-- Helper: the loop executes one iteration per oracle, whatever the oracles
contain. -/
theorem runLoop_length (sigs : EventSignatures) (os : List IterOracle) :
    ∀ st : IndexerState, ((runLoop sigs st os).2).length = os.length := by
  induction os with
  | nil => intro st; rfl
  | cons o rest ih =>
    intro st
    unfold runLoop
    simp only [List.length_cons, ih]

/-- Helper: an iteration whose first height reading does not pass the guard is
the skip iteration. -/
theorem runIter_no_advance (sigs : EventSignatures) (st : IndexerState)
    (o : IterOracle) (h1 : Nat) (hh1 : o.height1 = Except.ok h1)
    (hle : h1 ≤ st.last_processed_block) :
    runIter sigs st o = ⟨st, 0, 0, [], [], false⟩ := by
  unfold runIter
  rw [hh1]
  simp [hle]

/-- C5: for every log entry whose first-topic digest is not a key of the event
signature dict, and for every log entry with no topic at all, `_process_event`
is a no-op: the state is unchanged, no effect is produced, no handler is
invoked, and no exception escapes (the function is total). -/
theorem c5_unknown_signature_dispatch_noop (sigs : EventSignatures)
    (st : IndexerState) (ev : LogEvent) (o : EventOracle)
    (h : ev.topics = [] ∨
      ∃ t0 rest, ev.topics = t0 :: rest ∧
        bytesToHex t0 ≠ sigs.orderCreated ∧
        bytesToHex t0 ≠ sigs.orderMatched ∧
        bytesToHex t0 ≠ sigs.addressesTracked ∧
        bytesToHex t0 ≠ sigs.orderCompleted) :
    processEvent sigs st ev o = (st, [], none) := by
  unfold processEvent
  rcases h with h | ⟨t0, rest, hev, h1, h2, h3, h4⟩
  · rw [h]; rfl
  · rw [hev]
    show (match lookupHandler sigs (bytesToHex t0) with
      | none => (st, ([], none))
      | some hh =>
        let r := runHandler hh st ev o
        (r.1, r.2, some hh)) = (st, ([], none))
    unfold lookupHandler
    simp [h1, h2, h3, h4]

/-- Witness for C5 at a concrete unknown digest. -/
theorem c5_witness :
    processEvent sigsA {} ⟨[[9]]⟩ {} = ({}, [], none) :=
  c5_unknown_signature_dispatch_noop sigsA {} ⟨[[9]]⟩ {}
    (Or.inr ⟨[9], [], rfl, by decide, by decide, by decide, by decide⟩)

/-- C6: when handling an `OrderMatched` event fails — the order-id topic is
missing, its decode raises, or the `getOrder` contract read raises — the
handler leaves the whole indexer state unchanged; in particular
`current_order_id` keeps its prior value, because the assignment happens only
after a successful decode and read. -/
theorem c6_order_matched_failure_state_unchanged (st : IndexerState)
    (ev : LogEvent) (o : EventOracle)
    (h : ev.topics.get? 1 = none ∨
      (∃ t1, ev.topics.get? 1 = some t1 ∧ pyIntHex (bytesToHex t1) = none) ∨
      (∃ e, o.getOrder = Except.error e)) :
    (handleOrderMatched st ev o).1 = st ∧
    ((handleOrderMatched st ev o).1).current_order_id = st.current_order_id := by
  have hst : (handleOrderMatched st ev o).1 = st := by
    unfold handleOrderMatched
    rcases h with h | ⟨t1, ht, hp⟩ | ⟨e, he⟩
    · rw [h]
    · rw [ht]
      show (match pyIntHex (bytesToHex t1) with
        | none => (st, [])
        | some orderId =>
          match o.getOrder with
          | Except.error _ => (st, [Effect.contractGetOrder orderId])
          | Except.ok _order =>
            ({ st with current_order_id := some orderId },
             [Effect.contractGetOrder orderId])).1 = st
      rw [hp]
    · repeat' split
      all_goals try rfl
      rename_i horder
      rw [he] at horder
      exact absurd horder (by simp)
  exact ⟨hst, by rw [hst]⟩

/-- Witness for C6: a well-formed event whose `getOrder` read raises. -/
theorem c6_witness :
    (handleOrderMatched { current_order_id := some 7 } ⟨[[2], [5]]⟩
        { getOrder := Except.error "rpc down" }).1 =
      { current_order_id := some 7 } ∧
    ((handleOrderMatched { current_order_id := some 7 } ⟨[[2], [5]]⟩
        { getOrder := Except.error "rpc down" }).1).current_order_id =
      some 7 :=
  c6_order_matched_failure_state_unchanged { current_order_id := some 7 }
    ⟨[[2], [5]]⟩ { getOrder := Except.error "rpc down" }
    (Or.inr (Or.inr ⟨"rpc down", rfl⟩))

/-- C7: every call of `_submit_bid` first reassigns `base_url` to the constant
local endpoint and then posts to it, so whatever `base_url` or
`intent_matching_url` the state held before, the one POST goes to
`http://localhost:3000/bid`. -/
theorem c7_submit_bid_hardcoded_endpoint (st : IndexerState) (bid : BidData)
    (o : EventOracle) :
    submitBid st bid o =
      ({ st with base_url := some "http://localhost:3000" },
       [Effect.httpPost "http://localhost:3000/bid" bid]) :=
  submitBid_eq st bid o

/-- C8 counterexample: on a never-started indexer, `stop` emits no log message
at all — in particular no warning — refuting the claim that it logs one. -/
theorem c8_counterexample_stop_logs_nothing :
    stop ({} : IndexerState) = ({}, []) := rfl

/-- C8 amended: calling `stop` when the indexer is not running (no thread
object, or the worker already exited) does not raise and is a silent no-op:
the state is unchanged and nothing is logged. -/
theorem c8_stop_not_running_silent_noop (st : IndexerState)
    (h : st.indexer_thread_alive ≠ some true) :
    stop st = (st, []) := by
  unfold stop
  cases hh : st.indexer_thread_alive with
  | none => rfl
  | some b =>
    cases b with
    | false => rfl
    | true => exact absurd hh h

/-- Witness for C8 amended: a thread object exists but its worker exited. -/
theorem c8_witness :
    stop { indexer_thread_alive := some false } =
      ({ indexer_thread_alive := some false }, []) :=
  c8_stop_not_running_silent_noop { indexer_thread_alive := some false }
    (by decide)

/-- C9: an iteration whose first height reading does not exceed the stored
cursor issues no fetch call, dispatches no event, and leaves the state (in
particular the cursor) unchanged. -/
theorem c9_no_height_advance_frame (sigs : EventSignatures)
    (st : IndexerState) (o : IterOracle) (h1 : Nat)
    (hh1 : o.height1 = Except.ok h1)
    (hle : h1 ≤ st.last_processed_block) :
    (runIter sigs st o).fetchCalls = 0 ∧
    (runIter sigs st o).dispatched = [] ∧
    (runIter sigs st o).state = st := by
  rw [runIter_no_advance sigs st o h1 hh1 hle]
  exact ⟨rfl, rfl, rfl⟩

/-- Witness for C9 at height 0 against the fresh cursor 0. -/
theorem c9_witness :
    (runIter sigsA {} { height1 := Except.ok 0 }).fetchCalls = 0 ∧
    (runIter sigsA {} { height1 := Except.ok 0 }).dispatched = [] ∧
    (runIter sigsA {} { height1 := Except.ok 0 }).state = {} :=
  c9_no_height_advance_frame sigsA {} { height1 := Except.ok 0 } 0 rfl
    (by decide)

/-- Helper: on a three-topic entry whose order-id topic decodes, the
`OrderCreated` handler submits exactly one bid built from the decoded id, the
address suffix of topic 2, the placeholder agent id 0 and the fixed amount
100. -/
theorem handleOrderCreated_eq (st : IndexerState) (o : EventOracle)
    (t0 t1 t2 : List Nat) (n : Nat)
    (hdec : pyIntHex (bytesToHex t1) = some n) :
    handleOrderCreated st ⟨[t0, t1, t2]⟩ o =
      ({ st with base_url := some "http://localhost:3000" },
       [Effect.httpPost "http://localhost:3000/bid"
         ⟨n, "0x" ++ strTakeRight (bytesToHex t2) 40, 0, 100⟩]) := by
  unfold handleOrderCreated
  simp only [List.get?_cons_zero, List.get?_cons_succ, hdec, submitBid_eq]

/-- Helper: a digest equal to the `OrderCreated` key and different from the
three keys inserted after it resolves to the `OrderCreated` handler. -/
theorem lookupHandler_orderCreated (sigs : EventSignatures) (s : String)
    (h0 : s = sigs.orderCreated)
    (hd1 : sigs.orderCreated ≠ sigs.orderMatched)
    (hd2 : sigs.orderCreated ≠ sigs.addressesTracked)
    (hd3 : sigs.orderCreated ≠ sigs.orderCompleted) :
    lookupHandler sigs s = some Handler.orderCreated := by
  unfold lookupHandler
  rw [h0]
  simp [hd1, hd2, hd3]

/-- C1: dispatching an `OrderCreated` log entry — three topics, the first
being the `OrderCreated` digest (distinct from the other table keys, as
keccak digests are), the second decoding to order id 5 — invokes the
`OrderCreated` handler and produces exactly one HTTP POST, to
`http://localhost:3000/bid`, whose body is order id 5, user id `0x` followed
by the last 40 hex digits of topic 2, agent id 0 and amount 100. -/
theorem c1_order_created_posts_one_bid (sigs : EventSignatures)
    (st : IndexerState) (o : EventOracle) (t0 t1 t2 : List Nat)
    (h0 : bytesToHex t0 = sigs.orderCreated)
    (hd1 : sigs.orderCreated ≠ sigs.orderMatched)
    (hd2 : sigs.orderCreated ≠ sigs.addressesTracked)
    (hd3 : sigs.orderCreated ≠ sigs.orderCompleted)
    (h5 : pyIntHex (bytesToHex t1) = some 5) :
    (processEvent sigs st ⟨[t0, t1, t2]⟩ o).2.1 =
      [Effect.httpPost "http://localhost:3000/bid"
        ⟨5, "0x" ++ strTakeRight (bytesToHex t2) 40, 0, 100⟩] ∧
    (processEvent sigs st ⟨[t0, t1, t2]⟩ o).2.2 =
      some Handler.orderCreated := by
  unfold processEvent
  simp only [List.get?_cons_zero,
    lookupHandler_orderCreated sigs (bytesToHex t0) h0 hd1 hd2 hd3]
  simp only [runHandler, handleOrderCreated_eq st o t0 t1 t2 5 h5]
  exact ⟨trivial, trivial⟩

/-- Topic word encoding order id 5 as a 32-byte big-endian value. -/
def topicOrder5 : List Nat := List.replicate 31 0 ++ [5]

/-- Topic word of 32 bytes ending in the address byte suffix `abc`. -/
def topicUserAbc : List Nat := List.replicate 30 0 ++ [10, 188]

/-- Witness for C1 at the spec scenario: order id 5, user topic ending in
`abc`. -/
theorem c1_witness :
    (processEvent sigsA {} ⟨[[1], topicOrder5, topicUserAbc]⟩ {}).2.1 =
      [Effect.httpPost "http://localhost:3000/bid"
        ⟨5, "0x" ++ strTakeRight (bytesToHex topicUserAbc) 40, 0, 100⟩] ∧
    (processEvent sigsA {} ⟨[[1], topicOrder5, topicUserAbc]⟩ {}).2.2 =
      some Handler.orderCreated :=
  c1_order_created_posts_one_bid sigsA {} {} [1] topicOrder5 topicUserAbc
    rfl (by decide) (by decide) (by decide) (by decide)

/-- C2 counterexample: with the height advancing in two consecutive
iterations, the loop issues a `web3.eth.filter(contract_filter)` call — a new
filter — in each of the two iterations, refuting the claim that exactly one
filter is established at start and reused. -/
theorem c2_counterexample_filter_per_iteration :
    ((runLoop sigsA {}
        [{ height1 := Except.ok 1, height2 := Except.ok 1 },
         { height1 := Except.ok 2, height2 := Except.ok 2 }]).2.map
      IterResult.filterCreations) = [1, 1] := rfl

/-- C2 amended: the poller builds the filter descriptor once at start, but
creates a fresh log filter in every iteration whose height guard passes (and
in none whose guard fails): each fetch reads the changes of the filter created
in that same iteration, not of one filter established at start. -/
theorem c2_fresh_filter_each_advancing_iteration (sigs : EventSignatures)
    (st : IndexerState) (o : IterOracle) (h1 h2 : Nat)
    (hh1 : o.height1 = Except.ok h1) (hh2 : o.height2 = Except.ok h2) :
    (runIter sigs st o).filterCreations =
      if st.last_processed_block < h1 then 1 else 0 := by
  unfold runIter
  rw [hh1]
  dsimp only
  by_cases hc : h1 ≤ st.last_processed_block
  · rw [if_pos hc, if_neg (Nat.not_lt.mpr hc)]
  · rw [if_neg hc, if_pos (Nat.not_le.mp hc), hh2]
    dsimp only
    cases hnf : o.newFilter with
    | error e => rfl
    | ok fid =>
      dsimp only
      cases hch : o.changes with
      | error e => rfl
      | ok entries => rfl

/-- Witness for C2 amended on an advancing iteration. -/
theorem c2_witness :
    (runIter sigsA {}
        { height1 := Except.ok 1, height2 := Except.ok 1 }).filterCreations =
      if ({} : IndexerState).last_processed_block < 1 then 1 else 0 :=
  c2_fresh_filter_each_advancing_iteration sigsA {}
    { height1 := Except.ok 1, height2 := Except.ok 1 } 1 1 rfl rfl

/-- C3 counterexample: the guard uses the first height reading of an iteration
while the assignment stores the second; with readings 100, 100 in the first
iteration and 101, 50 in the second, the cursor holds 100 and is then
assigned 50 — it decreases. -/
theorem c3_counterexample_cursor_decreases :
    ((runLoop sigsA {}
        [{ height1 := Except.ok 100, height2 := Except.ok 100 },
         { height1 := Except.ok 101, height2 := Except.ok 50 }]).2.map
      (fun r => r.state.last_processed_block)) = [100, 50] := rfl

/-- C3 amended: the cursor starts at the sentinel 0, and an iteration can only
assign it a smaller value when the iteration's second height reading is below
its first; whenever every pair of readings of an iteration is consistent
(second at least first, in particular equal), the cursor never decreases. -/
theorem c3_cursor_monotone_when_reads_consistent :
    (({} : IndexerState).last_processed_block = 0) ∧
    ∀ (sigs : EventSignatures) (st : IndexerState) (o : IterOracle),
      (∀ a b, o.height1 = Except.ok a → o.height2 = Except.ok b → a ≤ b) →
      st.last_processed_block ≤
        (runIter sigs st o).state.last_processed_block := by
  refine ⟨rfl, ?_⟩
  intro sigs st o hcons
  unfold runIter
  cases hh1 : o.height1 with
  | error e => exact le_refl _
  | ok h1 =>
    dsimp only
    by_cases hc : h1 ≤ st.last_processed_block
    · rw [if_pos hc]
    · rw [if_neg hc]
      cases hh2 : o.height2 with
      | error e => exact le_refl _
      | ok h2 =>
        have hcur : st.last_processed_block ≤ h2 :=
          le_trans (le_of_lt (Nat.not_le.mp hc)) (hcons h1 h2 hh1 hh2)
        dsimp only
        cases hnf : o.newFilter with
        | error e => exact hcur
        | ok fid =>
          dsimp only
          cases hch : o.changes with
          | error e => exact hcur
          | ok entries =>
            dsimp only
            rw [processBatch_last_block]
            exact hcur

/-- Witness for C3 amended: an iteration whose two height readings agree. -/
theorem c3_witness :
    ({} : IndexerState).last_processed_block ≤
      (runIter sigsA {}
        { height1 := Except.ok 1, height2 := Except.ok 1 }).state.last_processed_block :=
  c3_cursor_monotone_when_reads_consistent.2 sigsA {}
    { height1 := Except.ok 1, height2 := Except.ok 1 }
    (by
      intro a b ha hb
      injection ha with ha1
      injection hb with hb1
      subst ha1
      subst hb1
      exact le_refl _)

/-- C10: in an iteration where the height advanced, the cursor is assigned the
second height reading before the filter call and the fetch; if the filter
creation or the fetch then raises, the error branch runs but the cursor keeps
the advanced value, and any later iteration whose height reading does not
exceed it issues no fetch and dispatches nothing — the failed range is never
re-fetched under the cursor guard. -/
theorem c10_cursor_not_rolled_back (sigs : EventSignatures)
    (st : IndexerState) (o : IterOracle) (h1 h2 : Nat)
    (hh1 : o.height1 = Except.ok h1)
    (hadv : st.last_processed_block < h1)
    (hh2 : o.height2 = Except.ok h2)
    (hfail : (∃ e, o.newFilter = Except.error e) ∨
      ((∃ fid, o.newFilter = Except.ok fid) ∧
        ∃ e, o.changes = Except.error e)) :
    (runIter sigs st o).state.last_processed_block = h2 ∧
    (runIter sigs st o).errored = true ∧
    ∀ (o2 : IterOracle) (g1 : Nat), o2.height1 = Except.ok g1 → g1 ≤ h2 →
      (runIter sigs (runIter sigs st o).state o2).fetchCalls = 0 ∧
      (runIter sigs (runIter sigs st o).state o2).dispatched = [] := by
  have key : (runIter sigs st o).state =
        { st with last_processed_block := h2 } ∧
      (runIter sigs st o).errored = true := by
    unfold runIter
    rw [hh1]
    dsimp only
    rw [if_neg (Nat.not_le.mpr hadv), hh2]
    dsimp only
    rcases hfail with ⟨e, hnf⟩ | ⟨⟨fid, hnf⟩, ⟨e2, hch⟩⟩
    · rw [hnf]
      exact ⟨rfl, rfl⟩
    · rw [hnf]
      dsimp only
      rw [hch]
      exact ⟨rfl, rfl⟩
  refine ⟨by rw [key.1], key.2, ?_⟩
  intro o2 g1 hg1 hle
  have hle2 : g1 ≤ ((runIter sigs st o).state).last_processed_block := by
    rw [key.1]
    exact hle
  rw [runIter_no_advance sigs ((runIter sigs st o).state) o2 g1 hg1 hle2]
  exact ⟨rfl, rfl⟩

/-- Witness for C10: height advances 100 → 101 and the fetch raises; the
cursor keeps 101 and a later reading of 101 triggers no fetch. -/
theorem c10_witness :
    (runIter sigsA { last_processed_block := 100 }
        { height1 := Except.ok 101, height2 := Except.ok 101,
          changes := Except.error "rpc down" }).state.last_processed_block =
      101 ∧
    (runIter sigsA { last_processed_block := 100 }
        { height1 := Except.ok 101, height2 := Except.ok 101,
          changes := Except.error "rpc down" }).errored = true ∧
    ∀ (o2 : IterOracle) (g1 : Nat), o2.height1 = Except.ok g1 → g1 ≤ 101 →
      (runIter sigsA
          (runIter sigsA { last_processed_block := 100 }
            { height1 := Except.ok 101, height2 := Except.ok 101,
              changes := Except.error "rpc down" }).state o2).fetchCalls = 0 ∧
      (runIter sigsA
          (runIter sigsA { last_processed_block := 100 }
            { height1 := Except.ok 101, height2 := Except.ok 101,
              changes := Except.error "rpc down" }).state o2).dispatched =
        [] :=
  c10_cursor_not_rolled_back sigsA { last_processed_block := 100 }
    { height1 := Except.ok 101, height2 := Except.ok 101,
      changes := Except.error "rpc down" } 101 101 rfl (by decide) rfl
    (Or.inr ⟨⟨0, rfl⟩, ⟨"rpc down", rfl⟩⟩)

/-- Decision of whether the body of one loop iteration raises an exception
that reaches the loop's `try/except`: one of the chain-client calls the
iteration performs raises. Handler exceptions never reach it — they are
caught inside `_process_event` and inside each handler. -/
def iterRaises (st : IndexerState) (o : IterOracle) : Bool :=
  match o.height1 with
  | Except.error _ => true
  | Except.ok h1 =>
    if h1 ≤ st.last_processed_block then false
    else
      match o.height2 with
      | Except.error _ => true
      | Except.ok _ =>
        match o.newFilter with
        | Except.error _ => true
        | Except.ok _ =>
          match o.changes with
          | Except.error _ => true
          | Except.ok _ => false

/-- Helper: the `except` branch of the loop body runs exactly when one of the
iteration's chain-client calls raises. -/
theorem runIter_errored_eq (sigs : EventSignatures) (st : IndexerState)
    (o : IterOracle) : (runIter sigs st o).errored = iterRaises st o := by
  unfold runIter iterRaises
  cases hh1 : o.height1 with
  | error e => rfl
  | ok h1 =>
    dsimp only
    by_cases hc : h1 ≤ st.last_processed_block
    · rw [if_pos hc, if_pos hc]
    · rw [if_neg hc, if_neg hc]
      cases hh2 : o.height2 with
      | error e => rfl
      | ok h2 =>
        dsimp only
        cases hnf : o.newFilter with
        | error e => rfl
        | ok fid =>
          dsimp only
          cases hch : o.changes with
          | error e => rfl
          | ok entries => rfl

/-- Helper: an `OrderCompleted` entry whose order-id topic is the empty byte
string makes the decode `int("0x", 16)` raise inside the handler; the handler
catches, leaving the state unchanged and producing no effect — the dispatcher
still returns normally. -/
theorem processEvent_completed_bad_topic (sigs : EventSignatures)
    (st : IndexerState) (o : EventOracle) (t0c : List Nat)
    (hc : bytesToHex t0c = sigs.orderCompleted) :
    processEvent sigs st ⟨[t0c, []]⟩ o =
      (st, [], some Handler.orderCompleted) := by
  have hl : lookupHandler sigs (bytesToHex t0c) =
      some Handler.orderCompleted := by
    unfold lookupHandler
    rw [hc]
    simp
  unfold processEvent
  simp only [List.get?_cons_zero, hl]
  dsimp only [runHandler]
  unfold handleOrderCompleted
  simp only [List.get?_cons_succ, List.get?_cons_zero]
  rfl

/-- Helper: dispatching a well-formed three-topic `OrderCreated` entry runs
the `OrderCreated` handler and yields exactly the one bid POST. -/
theorem processEvent_created_eq (sigs : EventSignatures) (st : IndexerState)
    (o : EventOracle) (t0 t1 t2 : List Nat) (n : Nat)
    (h0 : bytesToHex t0 = sigs.orderCreated)
    (hd1 : sigs.orderCreated ≠ sigs.orderMatched)
    (hd2 : sigs.orderCreated ≠ sigs.addressesTracked)
    (hd3 : sigs.orderCreated ≠ sigs.orderCompleted)
    (hdec : pyIntHex (bytesToHex t1) = some n) :
    processEvent sigs st ⟨[t0, t1, t2]⟩ o =
      ({ st with base_url := some "http://localhost:3000" },
       [Effect.httpPost "http://localhost:3000/bid"
         ⟨n, "0x" ++ strTakeRight (bytesToHex t2) 40, 0, 100⟩],
       some Handler.orderCreated) := by
  unfold processEvent
  simp only [List.get?_cons_zero,
    lookupHandler_orderCreated sigs (bytesToHex t0) h0 hd1 hd2 hd3]
  simp only [runHandler, handleOrderCreated_eq st o t0 t1 t2 n hdec]

/-- C4: a chain-client exception inside the loop body takes the `except`
branch (error logged, backoff sleep) and never terminates the poller: the
loop still runs one iteration per remaining oracle, and in the next iteration
a batch holding a decode-failing entry followed by a well-formed
`OrderCreated` entry is dispatched in full — the bad entry's handler
exception is caught inside, and the well-formed entry still produces its bid
POST. -/
theorem c4_exceptions_are_survived (sigs : EventSignatures)
    (st : IndexerState) (o1 o2 : IterOracle) (os : List IterOracle)
    (g1 g2 n fid : Nat) (t0c t0 t1 t2 : List Nat)
    (hraise : iterRaises st o1 = true)
    (hh1 : o2.height1 = Except.ok g1)
    (hadv : (runIter sigs st o1).state.last_processed_block < g1)
    (hh2 : o2.height2 = Except.ok g2)
    (hnf : o2.newFilter = Except.ok fid)
    (hch : o2.changes = Except.ok [⟨[t0c, []]⟩, ⟨[t0, t1, t2]⟩])
    (hc : bytesToHex t0c = sigs.orderCompleted)
    (h0 : bytesToHex t0 = sigs.orderCreated)
    (hd1 : sigs.orderCreated ≠ sigs.orderMatched)
    (hd2 : sigs.orderCreated ≠ sigs.addressesTracked)
    (hd3 : sigs.orderCreated ≠ sigs.orderCompleted)
    (hdec : pyIntHex (bytesToHex t1) = some n) :
    (runIter sigs st o1).errored = true ∧
    ((runLoop sigs st (o1 :: o2 :: os)).2).length = os.length + 2 ∧
    (runIter sigs (runIter sigs st o1).state o2).dispatched =
      [⟨[t0c, []]⟩, ⟨[t0, t1, t2]⟩] ∧
    (runIter sigs (runIter sigs st o1).state o2).effects =
      [Effect.httpPost "http://localhost:3000/bid"
        ⟨n, "0x" ++ strTakeRight (bytesToHex t2) 40, 0, 100⟩] := by
  refine ⟨by rw [runIter_errored_eq]; exact hraise, ?_, ?_⟩
  · have := runLoop_length sigs (o1 :: o2 :: os) st
    simpa using this
  · set st1 := (runIter sigs st o1).state with hst1
    have hrun : runIter sigs st1 o2 =
        ⟨(processBatch sigs { st1 with last_processed_block := g2 }
            [⟨[t0c, []]⟩, ⟨[t0, t1, t2]⟩] o2.events).1,
          1, 1, [⟨[t0c, []]⟩, ⟨[t0, t1, t2]⟩],
          (processBatch sigs { st1 with last_processed_block := g2 }
            [⟨[t0c, []]⟩, ⟨[t0, t1, t2]⟩] o2.events).2, false⟩ := by
      unfold runIter
      rw [hh1]
      dsimp only
      rw [if_neg (Nat.not_le.mpr hadv), hh2]
      dsimp only
      rw [hnf]
      dsimp only
      rw [hch]
    have hbatch : (processBatch sigs { st1 with last_processed_block := g2 }
        [⟨[t0c, []]⟩, ⟨[t0, t1, t2]⟩] o2.events).2 =
        [Effect.httpPost "http://localhost:3000/bid"
          ⟨n, "0x" ++ strTakeRight (bytesToHex t2) 40, 0, 100⟩] := by
      unfold processBatch
      rw [processEvent_completed_bad_topic sigs _ _ t0c hc]
      dsimp only
      unfold processBatch
      rw [processEvent_created_eq sigs _ _ t0 t1 t2 n h0 hd1 hd2 hd3 hdec]
      rfl
    rw [hrun]
    exact ⟨rfl, hbatch⟩

/-- Witness for C4: first iteration's fetch raises; the next iteration
dispatches a bad `OrderCompleted` entry and a good `OrderCreated` entry. -/
theorem c4_witness :
    (runIter sigsA {}
        { height1 := Except.ok 1, height2 := Except.ok 1,
          changes := Except.error "rpc down" }).errored = true ∧
    ((runLoop sigsA {}
        [{ height1 := Except.ok 1, height2 := Except.ok 1,
           changes := Except.error "rpc down" },
         { height1 := Except.ok 2, height2 := Except.ok 2,
           changes := Except.ok [⟨[[4], []]⟩,
             ⟨[[1], topicOrder5, topicUserAbc]⟩] }]).2).length = 0 + 2 ∧
    (runIter sigsA
        (runIter sigsA {}
          { height1 := Except.ok 1, height2 := Except.ok 1,
            changes := Except.error "rpc down" }).state
        { height1 := Except.ok 2, height2 := Except.ok 2,
          changes := Except.ok [⟨[[4], []]⟩,
            ⟨[[1], topicOrder5, topicUserAbc]⟩] }).dispatched =
      [⟨[[4], []]⟩, ⟨[[1], topicOrder5, topicUserAbc]⟩] ∧
    (runIter sigsA
        (runIter sigsA {}
          { height1 := Except.ok 1, height2 := Except.ok 1,
            changes := Except.error "rpc down" }).state
        { height1 := Except.ok 2, height2 := Except.ok 2,
          changes := Except.ok [⟨[[4], []]⟩,
            ⟨[[1], topicOrder5, topicUserAbc]⟩] }).effects =
      [Effect.httpPost "http://localhost:3000/bid"
        ⟨5, "0x" ++ strTakeRight (bytesToHex topicUserAbc) 40, 0, 100⟩] :=
  c4_exceptions_are_survived sigsA {}
    { height1 := Except.ok 1, height2 := Except.ok 1,
      changes := Except.error "rpc down" }
    { height1 := Except.ok 2, height2 := Except.ok 2,
      changes := Except.ok [⟨[[4], []]⟩,
        ⟨[[1], topicOrder5, topicUserAbc]⟩] }
    [] 2 2 5 0 [4] [1] topicOrder5 topicUserAbc rfl rfl (by decide) rfl rfl
    rfl rfl rfl (by decide) (by decide) (by decide) (by decide)
